import Mathlib

/-!
A shallow embedding of the core of `streamlit_app.py` (an Ireland visa
application status checker): the dataframe preparation of `prepare_dataframe`
(header-row scan, key coercion via `astype(str).str.strip().astype(int)`,
sort), the `bisect`-based neighbour search of `binary_search_nearest`, and the
input validation and result presentation of `search_application`.

Modelling conventions: Python integers are unbounded, so keys are `Int` and
parsed queries are `Nat`; Python exceptions (`KeyError`, `ValueError`) become
explicit error values; strings are handled through their character lists, with
the ASCII behaviour of `str.isdigit`, `str.lower` and `str.strip` (the inputs
of interest are ASCII).  Dataframe rows are pairs of the two relevant cells.
-/

/-- One raw spreadsheet row: the two cells of the columns the source reads
(named "Unnamed: 2" and "Unnamed: 3" before the header is recognised), holding
the raw application number and the decision text. -/
abbrev RawRow := String × String

/-- One row of the prepared dataframe: integer application number plus the raw
decision string. -/
abbrev Entry := Int × String

/-- Python `int` applied to a non-empty string of ASCII digits: base-10 value
of the digit characters. -/
def digitsToNat (l : List Char) : Nat :=
  l.foldl (fun n c => 10 * n + (c.toNat - 48)) 0

/-- Helper for `decimalLen` with explicit fuel (the fuel only has to dominate
the number of digits; `decimalLen` passes the number itself). -/
def decimalLenAux : Nat → Nat → Nat
  | 0, _ => 1
  | fuel + 1, n => if n < 10 then 1 else decimalLenAux fuel (n / 10) + 1

/-- `len(str(n))` for a non-negative Python integer `n`: the number of digits
of its decimal representation (`1` for `0`). -/
def decimalLen (n : Nat) : Nat := decimalLenAux n n

/-- Python `s.split("irl")` over a character list: split at every
non-overlapping occurrence of the three-character separator, scanning left to
right; boundary segments may be empty, and a separator-free input yields the
single segment `[l]`.  The first argument accumulates the current segment in
reverse. -/
def splitIrlAux : List Char → List Char → List (List Char)
  | acc, 'i' :: 'r' :: 'l' :: rest => acc.reverse :: splitIrlAux [] rest
  | acc, c :: rest => splitIrlAux (c :: acc) rest
  | acc, [] => [acc.reverse]

/-- Python `s.split("irl")` on a list of characters. -/
def splitIrl (l : List Char) : List (List Char) := splitIrlAux [] l

/-- `user_input.lower()` as a character list (ASCII lowering, which is all the
"irl" token test needs). -/
def lowerChars (s : String) : List Char := s.toList.map Char.toLower

/-- The segments of `user_input.lower().split("irl")`; the input contains the
token "irl" case-insensitively exactly when there are at least two segments,
which is how the source's `"irl" in user_input.lower()` test is modelled. -/
def irlSegments (s : String) : List (List Char) := splitIrl (lowerChars s)

/-- `filter(str.isdigit, user_input.lower().split("irl")[-1])`: the digit
characters of the segment after the last "irl" token. -/
def irlDigits (s : String) : List Char :=
  ((irlSegments s).getLastD []).filter Char.isDigit

/-- The distinct user-facing validation messages of the input checks in
`search_application` (source lines 119-135).  Each constructor stands for one
`st.warning`/`st.error` string actually present in the source. -/
inductive ParseMsg where
  /-- The warning "Please enter a valid application number with at least 8
  digits after IRL." (line 123). -/
  | atLeast8AfterIrl
  /-- The error "Invalid input after IRL. Please enter only digits."
  (line 126), reached via the `ValueError` of `int("")` when no digit at all
  is left after the token. -/
  | invalidAfterIrl
  /-- The warning "Please enter at least 8 digits for your VISA application
  number." (line 130), guarding `not user_input.isdigit() or len < 8`. -/
  | atLeast8
  /-- The warning "The application number cannot exceed 8 digits. Please
  correct your input." (line 133). -/
  | exceed8
  deriving DecidableEq

/-- The input validation of `search_application` (lines 117-135), for the
non-empty `user_input` the surrounding `if user_input:` admits.  The
country-code branch keeps the digits after the last "irl", converts them with
`int` (whose `ValueError` on an empty digit string is the `invalidAfterIrl`
error), then requires `len(str(application_number)) >= 8` — a condition on the
digit count of the *value*, after `int` has dropped leading zeros.  The plain
branch requires an all-digit input of exactly 8 characters. -/
def parseInput (s : String) : Except ParseMsg Nat :=
  if 1 < (irlSegments s).length then
    if irlDigits s = [] then .error .invalidAfterIrl
    else if decimalLen (digitsToNat (irlDigits s)) < 8 then .error .atLeast8AfterIrl
    else .ok (digitsToNat (irlDigits s))
  else
    if ¬ (s.toList ≠ [] ∧ s.toList.all Char.isDigit = true) ∨ s.toList.length < 8 then
      .error .atLeast8
    else if 8 < s.toList.length then .error .exceed8
    else .ok (digitsToNat s.toList)

/-- The header test of source line 69: both cells hold exactly the literal
tokens, compared case-sensitively. -/
def isHeaderRow (r : RawRow) : Bool :=
  r.1 == "Application Number" && r.2 == "Decision"

/-- Source lines 68-72: scan the rows in order for the first header row and
keep exactly the rows strictly after it (`df = df.iloc[idx + 1:]` followed by
`break`); `none` when no row matches — in the source the loop then simply
falls through with the columns unrenamed, so line 75 raises `KeyError`. -/
def extractRows : List RawRow → Option (List RawRow)
  | [] => none
  | r :: rs => if isHeaderRow r then some rs else extractRows rs

/-- Python whitespace stripping of `str.strip()` on a character list. -/
def stripChars (l : List Char) : List Char :=
  ((l.dropWhile Char.isWhitespace).reverse.dropWhile Char.isWhitespace).reverse

/-- Python `int(s.strip())` as performed cell-wise by source line 75's
`.astype(str).str.strip().astype(int)`: after stripping, an optional sign
followed by at least one ASCII digit; anything else raises `ValueError`,
modelled as `none`. -/
def pyStrToInt (s : String) : Option Int :=
  match stripChars s.toList with
  | [] => none
  | '-' :: rest =>
    if rest ≠ [] ∧ rest.all Char.isDigit = true then some (-(digitsToNat rest : Int))
    else none
  | '+' :: rest =>
    if rest ≠ [] ∧ rest.all Char.isDigit = true then some ((digitsToNat rest : Int))
    else none
  | l =>
    if l.all Char.isDigit = true then some ((digitsToNat l : Int)) else none

/-- The two exceptions that can escape `prepare_dataframe` at source line 75:
the `KeyError` of selecting the never-created "Application Number" column
(no header row was found, or the sheet was empty), and the `ValueError` of a
key cell that does not convert to an integer. -/
inductive PrepError where
  | keyError
  | valueError
  deriving DecidableEq

/-- Source line 75 applied row by row: convert every key cell, the whole
column conversion failing on any bad cell, exactly as `astype(int)` does. -/
def normalizeRows : List RawRow → Option (List Entry)
  | [] => some []
  | r :: rs =>
    match pyStrToInt r.1, normalizeRows rs with
    | some k, some es => some ((k, r.2) :: es)
    | _, _ => none

/-- Ordering of prepared rows by application number, the sort key of source
line 76. -/
def entryLE (a b : Entry) : Prop := a.1 ≤ b.1

instance : DecidableRel entryLE := fun a b => Int.decLe a.1 b.1

instance : IsTotal Entry entryLE := ⟨fun a b => Int.le_total a.1 b.1⟩

instance : IsTrans Entry entryLE := ⟨fun _ _ _ h h2 => le_trans h h2⟩

/-- Source line 76, `df.sort_values(by="Application Number")`: a sort by key.
The source's default quicksort leaves the relative order of equal keys
unspecified; it is modelled by a stable sort, and nothing proved below depends
on the order among equal keys. -/
def sortEntries (es : List Entry) : List Entry := List.insertionSort entryLE es

/-- Source lines 74-77: the key coercion of every data row followed by the
sort. -/
def buildIndex (data : List RawRow) : Except PrepError (List Entry) :=
  match normalizeRows data with
  | none => .error .valueError
  | some es => .ok (sortEntries es)

/-- `prepare_dataframe` after the placeholder-column and blank-row cleanup of
source lines 63-65: the header scan of lines 68-72, then the key coercion and
sort of lines 74-77.  When no header row exists the columns keep their
original names and line 75 raises `KeyError`. -/
def prepare_dataframe (rows : List RawRow) : Except PrepError (List Entry) :=
  match extractRows rows with
  | none => .error .keyError
  | some data => buildIndex data

/-- `bisect.bisect_left` on the sorted key list (source line 97): the number
of leading elements smaller than the target, i.e. the insertion position; on a
sorted list this linear characterisation is exactly what the binary search
computes. -/
def bisect_left : List Int → Int → Nat
  | [], _ => 0
  | x :: xs, t => if x < t then bisect_left xs t + 1 else 0

/-- `binary_search_nearest` (source lines 85-102): the keys just before and at
the insertion position, each `none` when it falls off the list. -/
def binary_search_nearest (keys : List Int) (target : Int) : Option Int × Option Int :=
  (if 0 < bisect_left keys target then keys.get? (bisect_left keys target - 1) else none,
   keys.get? (bisect_left keys target))

/-- One row of the `nearest_records` dataframe of source lines 154-165: the
"Nearest Application" label and the three nullable cells. -/
structure NearRow where
  label : String
  appNum : Option Int
  decision : Option String
  diff : Option Int
  deriving DecidableEq

/-- Python truthiness of an optional integer, the guard of the
`... if before else None` expressions of lines 158-164: `None` and `0` are
both falsy. -/
def truthy : Option Int → Bool
  | none => false
  | some v => v != 0

/-- `df[df["Application Number"] == k]["Decision"].values[0]`: the decision of
the first row carrying the given key.  The `none` case (no such row) would be
an `IndexError` in the source; the call sites below reach it only with keys
taken from the dataframe itself. -/
def decisionOf (df : List Entry) (k : Int) : Option String :=
  (df.find? (fun e => e.1 == k)).map Prod.snd

/-- The "Before" row of `nearest_records` (lines 155-164): its decision and
difference cells are filled only when `before` is truthy. -/
def beforeRow (df : List Entry) (q : Int) (b : Option Int) : NearRow :=
  ⟨"Before", b,
   if truthy b then decisionOf df (b.getD 0) else none,
   if truthy b then some (q - b.getD 0) else none⟩

/-- The "After" row of `nearest_records` (lines 155-164). -/
def afterRow (df : List Entry) (q : Int) (a : Option Int) : NearRow :=
  ⟨"After", a,
   if truthy a then decisionOf df (a.getD 0) else none,
   if truthy a then some (a.getD 0 - q) else none⟩

/-- A row survives the `dropna()` of line 165 exactly when none of its
nullable cells is missing (the label cell never is). -/
def rowComplete (r : NearRow) : Bool :=
  r.appNum.isSome && r.decision.isSome && r.diff.isSome

/-- Source lines 154-165: the two candidate rows followed by `dropna()`. -/
def nearestRecords (df : List Entry) (q : Int) (b a : Option Int) : List NearRow :=
  [beforeRow df q b, afterRow df q a].filter rowComplete

/-- The observable outcome of the search stage of `search_application`
(lines 138-171): either an exact hit rendering the stored decision, or the
"No record found" path carrying the (possibly empty) nearest-records table —
an empty table is rendered as "No nearest application numbers found." -/
inductive SearchOutcome where
  | exact (appNum : Int) (decision : String)
  | noRecord (nearest : List NearRow)
  deriving DecidableEq

/-- Lines 138-171: the equality filter on the dataframe, the first hit's
decision on success, and otherwise the nearest-records table built from
`binary_search_nearest`. -/
def searchOutcome (df : List Entry) (q : Int) : SearchOutcome :=
  match df.find? (fun e => e.1 == q) with
  | some e => .exact q e.2
  | none =>
    .noRecord (nearestRecords df q (binary_search_nearest (df.map Prod.fst) q).1
      (binary_search_nearest (df.map Prod.fst) q).2)

/-! Supporting lemmas. -/

theorem decimalLenAux_pos (fuel n : Nat) : 1 ≤ decimalLenAux fuel n := by
  cases fuel with
  | zero => exact le_refl 1
  | succ f =>
    unfold decimalLenAux
    split
    · exact le_refl 1
    · omega

theorem decimalLenAux_le_iff (k : Nat) :
    ∀ n fuel : Nat, n ≤ fuel → (decimalLenAux fuel n ≤ k + 1 ↔ n < 10 ^ (k + 1)) := by
  induction k with
  | zero =>
    intro n fuel hf
    cases fuel with
    | zero =>
      have hn : n = 0 := Nat.le_zero.mp hf
      subst hn
      simp [decimalLenAux]
    | succ f =>
      have hp : (10 : Nat) ^ (0 + 1) = 10 := by norm_num
      unfold decimalLenAux
      split
      · omega
      · have hpos := decimalLenAux_pos f (n / 10)
        omega
  | succ k ih =>
    intro n fuel hf
    cases fuel with
    | zero =>
      have hn : n = 0 := Nat.le_zero.mp hf
      subst hn
      have h10 : 0 < 10 ^ (k + 1 + 1) := pow_pos (by norm_num) _
      simp only [decimalLenAux]
      omega
    | succ f =>
      unfold decimalLenAux
      split
      · have h10 : (10 : Nat) ^ 1 ≤ 10 ^ (k + 1 + 1) :=
          Nat.pow_le_pow_right (by norm_num) (by omega)
        simp only [pow_one] at h10
        omega
      · have hdiv : n / 10 ≤ f := by omega
        have hIH := ih (n / 10) f hdiv
        have hmul : n / 10 < 10 ^ (k + 1) ↔ n < 10 ^ (k + 1) * 10 :=
          Nat.div_lt_iff_lt_mul (by norm_num)
        rw [pow_succ]
        omega

theorem decimalLen_lt_iff (n : Nat) : decimalLen n < 8 ↔ n < 10 ^ 7 := by
  have h := decimalLenAux_le_iff 6 n n (le_refl n)
  simpa [decimalLen, Nat.lt_succ_iff] using h

/-! The query-parser claims. -/

/-- Claim C1, counterexample: for the input "irl000000012" nine digits remain
after filtering the text behind the "irl" token, so under the claim the parse
would have to succeed (with at least 8 digits remaining, no TooShort); the
code nevertheless rejects it with the TooShort warning, because it counts the
digits of `int("000000012") = 12` after the leading zeros are gone. -/
theorem c1_counterexample :
    (irlDigits ("irl000000012")).length = 9 ∧
    parseInput ("irl000000012") = .error .atLeast8AfterIrl := ⟨rfl, rfl⟩

/-- Claim C1 (amended): for every input containing the token "irl"
(case-insensitively), everything after the last occurrence is scanned and
non-digits are discarded; if no digit remains the parse rejects with the
invalid-input error, and otherwise it rejects with TooShort exactly when the
*value* of the filtered digits is below 10^7 — i.e. when, after `int` has
dropped leading zeros, fewer than 8 digits are left.  Leading zeros therefore
do not count toward the 8-digit minimum; `parse("irl 0012345678")` still
succeeds with 12345678 because that value has exactly 8 digits. -/
theorem c1_amended (s : String) (h : 1 < (irlSegments s).length) :
    (irlDigits s = [] → parseInput s = .error .invalidAfterIrl) ∧
    (irlDigits s ≠ [] → digitsToNat (irlDigits s) < 10 ^ 7 →
      parseInput s = .error .atLeast8AfterIrl) ∧
    (irlDigits s ≠ [] → 10 ^ 7 ≤ digitsToNat (irlDigits s) →
      parseInput s = .ok (digitsToNat (irlDigits s))) := by
  unfold parseInput
  rw [if_pos h]
  refine ⟨fun hd => ?_, fun hd hlt => ?_, fun hd hge => ?_⟩
  · rw [if_pos hd]
  · rw [if_neg hd, if_pos ((decimalLen_lt_iff _).mpr hlt)]
  · rw [if_neg hd, if_neg ?_]
    intro hcon
    exact absurd ((decimalLen_lt_iff _).mp hcon) (not_lt.mpr hge)

/-- Claim C1, witness: the amended characterisation applied to the spec's own
example "irl 0012345678", whose filtered digits have the value 12345678. -/
theorem c1_amended_witness :
    parseInput ("irl 0012345678") = .ok (digitsToNat (irlDigits ("irl 0012345678"))) ∧
    digitsToNat (irlDigits ("irl 0012345678")) = 12345678 :=
  ⟨(c1_amended ("irl 0012345678") (by decide)).2.2 (by decide) (by decide), by decide⟩

/-- Claim C6, counterexample: the non-digit input "12a45678" and the all-digit
but 7-character input "1234567" are rejected with one and the same validation
message ("Please enter at least 8 digits for your VISA application number."),
so the NotDigits defect is not surfaced as a message of its own, distinct from
TooShort, as the claim requires. -/
theorem c6_counterexample :
    parseInput ("12a45678") = .error .atLeast8 ∧
    parseInput ("1234567") = .error .atLeast8 ∧
    parseInput ("12a45678") = parseInput ("1234567") := by
  refine ⟨rfl, rfl, ?_⟩
  rw [show parseInput ("12a45678") = .error .atLeast8 from rfl]
  rw [show parseInput ("1234567") = .error .atLeast8 from rfl]

/-- Claim C6 (amended): for every non-empty input without the "irl" token, the
code rejects input that is not all ASCII digits and all-digit input shorter
than 8 characters with one shared "at least 8 digits" message, rejects
all-digit input longer than 8 characters with the distinct "cannot exceed 8
digits" message, and accepts exactly 8 digits — so the three defects of the
claim collapse onto two distinct validation messages, the not-digits defect
sharing its message with too-short input. -/
theorem c6_amended (s : String) (hne : s.toList ≠ [])
    (hno : ¬ 1 < (irlSegments s).length) :
    (¬ s.toList.all Char.isDigit = true → parseInput s = .error .atLeast8) ∧
    (s.toList.all Char.isDigit = true → s.toList.length < 8 →
      parseInput s = .error .atLeast8) ∧
    (s.toList.all Char.isDigit = true → 8 < s.toList.length →
      parseInput s = .error .exceed8) ∧
    (s.toList.all Char.isDigit = true → s.toList.length = 8 →
      parseInput s = .ok (digitsToNat s.toList)) := by
  unfold parseInput
  rw [if_neg hno]
  refine ⟨fun hd => ?_, fun hd hlt => ?_, fun hd hgt => ?_, fun hd heq => ?_⟩
  · rw [if_pos (Or.inl (fun hc => hd hc.2))]
  · rw [if_pos (Or.inr hlt)]
  · rw [if_neg ?_, if_pos hgt]
    push_neg
    exact ⟨⟨hne, hd⟩, by omega⟩
  · rw [if_neg ?_, if_neg (by omega)]
    push_neg
    exact ⟨⟨hne, hd⟩, by omega⟩

/-- Claim C6, witness: the amended characterisation applied to the 8-digit
input "98765432", which parses successfully. -/
theorem c6_amended_witness :
    parseInput ("98765432") = .ok (digitsToNat (String.toList ("98765432"))) ∧
    digitsToNat (String.toList ("98765432")) = 98765432 :=
  ⟨(c6_amended ("98765432") (by decide) (by decide)).2.2.2 (by decide) (by decide),
   by decide⟩

/-! The extraction and index-building claims. -/

theorem normalizeRows_length (data : List RawRow) :
    ∀ es, normalizeRows data = some es → es.length = data.length := by
  induction data with
  | nil =>
    intro es h
    unfold normalizeRows at h
    injection h with h
    rw [← h]
    rfl
  | cons r rs ih =>
    intro es h
    unfold normalizeRows at h
    cases hk : pyStrToInt r.1 with
    | none => rw [hk] at h; cases h
    | some k =>
      cases hn : normalizeRows rs with
      | none => rw [hk, hn] at h; cases h
      | some tl =>
        rw [hk, hn] at h
        injection h with h
        rw [← h]
        simp [ih tl hn]

/-- Claim C9: whenever the header scan succeeds, the input decomposes as a
header-free prefix, the first header row, and then exactly the returned rows:
the extraction keeps precisely the rows strictly after the first header row,
in their original order, and never the header row or anything before it. -/
theorem c9_extract (rows out : List RawRow) (h : extractRows rows = some out) :
    ∃ pre hdr, rows = pre ++ hdr :: out ∧ isHeaderRow hdr = true ∧
      ∀ r ∈ pre, isHeaderRow r = false := by
  induction rows generalizing out with
  | nil => cases h
  | cons r rs ih =>
    unfold extractRows at h
    cases hr : isHeaderRow r with
    | true =>
      rw [if_pos hr] at h
      injection h with h
      exact ⟨[], r, by simp [h], hr, by simp⟩
    | false =>
      rw [if_neg (by simp [hr])] at h
      obtain ⟨pre, hdr, heq, hh, hpre⟩ := ih out h
      refine ⟨r :: pre, hdr, by simp [heq], hh, ?_⟩
      intro x hx
      rcases List.mem_cons.mp hx with hx' | hx'
      · rw [hx']; exact hr
      · exact hpre x hx'

/-- Claim C9, witness: the decomposition applied to a three-row sheet with one
junk row before the header. -/
theorem c9_witness :
    ∃ pre hdr,
      ([("junk", "j"), ("Application Number", "Decision"), ("12345678", "Approved")]
        : List RawRow) = pre ++ hdr :: [("12345678", "Approved")] ∧
      isHeaderRow hdr = true ∧ ∀ r ∈ pre, isHeaderRow r = false :=
  c9_extract _ _ (by decide)

/-- Claim C3, counterexample: on a table with no header row the build fails
with the `KeyError` raised by selecting the missing "Application Number"
column — and that failure is literally the same as the one produced by an
empty document, so it is not a `NoHeaderFound` value distinguishable from the
empty-document case, and it is an exception escaping `prepare_dataframe`
rather than a returned failure value. -/
theorem c3_counterexample :
    prepare_dataframe [("no header here", "x")] = .error .keyError ∧
    prepare_dataframe ([] : List RawRow) = .error .keyError ∧
    prepare_dataframe [("no header here", "x")] = prepare_dataframe ([] : List RawRow) := by
  refine ⟨rfl, rfl, ?_⟩
  rw [show prepare_dataframe [("no header here", "x")] = .error .keyError from rfl]
  rw [show prepare_dataframe ([] : List RawRow) = .error .keyError from rfl]

/-- Claim C3 (amended): whenever the header scan finds no row whose two cells
are exactly "Application Number" and "Decision", `prepare_dataframe` ends in
the `KeyError` exception of line 75 — the same outcome as for an empty
document (there is no dedicated `NoHeaderFound` value), though still distinct
from the `ValueError` of key normalization. -/
theorem c3_amended (rows : List RawRow) (h : extractRows rows = none) :
    prepare_dataframe rows = .error .keyError ∧
    prepare_dataframe rows ≠ .error .valueError := by
  unfold prepare_dataframe
  rw [h]
  exact ⟨rfl, by simp⟩

/-- Claim C3, witness: the amended statement applied to a one-row headerless
table. -/
theorem c3_amended_witness :
    prepare_dataframe [("x", "y")] = .error .keyError ∧
    prepare_dataframe [("x", "y")] ≠ .error .valueError :=
  c3_amended _ (by decide)

/-- Claim C2, counterexample: from the spec's example rows the build keeps all
three rows — both occurrences of the duplicated key 10000001 survive — instead
of the claimed two-entry index, and no duplicate count exists anywhere in the
build's result. -/
theorem c2_counterexample :
    buildIndex [("10000001", "Approved"), ("10000001", "Refused"), ("10000005", "Refused")] =
      .ok [((10000001 : Int), "Approved"), ((10000001 : Int), "Refused"),
        ((10000005 : Int), "Refused")] := rfl

/-- Claim C2 (amended): every successful build is sorted non-strictly
ascending by application number and retains every input row, duplicates
included: the index has exactly as many entries as the data region has rows,
so no duplicate is ever dropped, first-seen or otherwise, and no duplicate
count is recorded. -/
theorem c2_amended (data : List RawRow) (idx : List Entry)
    (h : buildIndex data = .ok idx) :
    (idx.map Prod.fst).Pairwise (· ≤ ·) ∧ idx.length = data.length := by
  cases hn : normalizeRows data with
  | none =>
    have : buildIndex data = .error .valueError := by
      unfold buildIndex
      rw [hn]
    rw [this] at h
    cases h
  | some es =>
    have hb : buildIndex data = .ok (sortEntries es) := by
      unfold buildIndex
      rw [hn]
    rw [hb] at h
    injection h with h
    subst h
    constructor
    · have hs : List.Sorted entryLE (sortEntries es) :=
        List.sorted_insertionSort entryLE es
      rw [List.pairwise_map]
      exact hs
    · have h1 : (sortEntries es).length = es.length :=
        (List.perm_insertionSort entryLE es).length_eq
      rw [h1, normalizeRows_length data es hn]

/-- Claim C2, witness: the amended statement applied to the spec's example
rows, whose build keeps all three entries in ascending key order. -/
theorem c2_amended_witness :
    ((([((10000001 : Int), "Approved"), ((10000001 : Int), "Refused"),
        ((10000005 : Int), "Refused")] : List Entry).map Prod.fst).Pairwise (· ≤ ·)) ∧
    ([((10000001 : Int), "Approved"), ((10000001 : Int), "Refused"),
        ((10000005 : Int), "Refused")] : List Entry).length =
      ([("10000001", "Approved"), ("10000001", "Refused"), ("10000005", "Refused")]
        : List RawRow).length :=
  c2_amended _ _ rfl

/-- Claim C4, counterexample: a single malformed key ("abc") makes the whole
build fail with `ValueError`; the valid row ("10000001", "Approved") is not
ingested and no skip count is produced, contradicting the claimed row-local
soft-skip behaviour. -/
theorem c4_counterexample :
    buildIndex [("abc", "X"), ("10000001", "Approved")] = .error .valueError := rfl

/-- Claim C4 (amended): any row whose stripped key fails Python integer
conversion aborts the entire build with the `ValueError` of `astype(int)`:
no index is produced at all (so no other row is ingested) and there is no
soft-skip count. -/
theorem c4_amended (data : List RawRow) (r : RawRow) (hr : r ∈ data)
    (hbad : pyStrToInt r.1 = none) :
    buildIndex data = .error .valueError := by
  have hn : normalizeRows data = none := by
    induction data with
    | nil => cases hr
    | cons x xs ih =>
      unfold normalizeRows
      rcases List.mem_cons.mp hr with heq | hmem
      · subst heq
        rw [hbad]
      · cases hpx : pyStrToInt x.1 with
        | none => rfl
        | some k => rw [ih hmem]
  unfold buildIndex
  rw [hn]

/-- Claim C4, witness: the amended statement applied to a table whose second
key "12.5" fails integer conversion (a decimal point is not a digit). -/
theorem c4_amended_witness :
    buildIndex [("10000001", "Approved"), ("12.5", "X")] = .error .valueError :=
  c4_amended _ ("12.5", "X") (by decide) (by decide)

/-! The lookup-engine claims. -/

theorem bisect_left_le_length (l : List Int) (t : Int) : bisect_left l t ≤ l.length := by
  induction l with
  | nil => exact Nat.le_refl 0
  | cons x xs ih =>
    unfold bisect_left
    split
    · simpa [List.length_cons] using Nat.succ_le_succ ih
    · exact Nat.zero_le _

theorem bisect_left_get_lt (l : List Int) (t : Int) :
    ∀ i b, i < bisect_left l t → l.get? i = some b → b < t := by
  induction l with
  | nil => intro i b hi; simp [bisect_left] at hi
  | cons x xs ih =>
    intro i b hi hget
    unfold bisect_left at hi
    by_cases hx : x < t
    · rw [if_pos hx] at hi
      cases i with
      | zero =>
        rw [List.get?_cons_zero] at hget
        injection hget with hget
        rw [← hget]
        exact hx
      | succ i =>
        rw [List.get?_cons_succ] at hget
        exact ih i b (by omega) hget
    · rw [if_neg hx] at hi
      omega

theorem bisect_left_get_ge (l : List Int) (t : Int) :
    ∀ b, l.get? (bisect_left l t) = some b → ¬ b < t := by
  induction l with
  | nil => intro b h; cases h
  | cons x xs ih =>
    intro b h
    unfold bisect_left at h
    by_cases hx : x < t
    · rw [if_pos hx, List.get?_cons_succ] at h
      exact ih b h
    · rw [if_neg hx, List.get?_cons_zero] at h
      injection h with h
      rw [← h]
      exact hx

theorem bisect_left_eq_length (l : List Int) (t : Int) (h : ∀ y ∈ l, y < t) :
    bisect_left l t = l.length := by
  induction l with
  | nil => rfl
  | cons x xs ih =>
    unfold bisect_left
    rw [if_pos (h x (List.mem_cons_self x xs))]
    simp [ih (fun y hy => h y (List.mem_cons_of_mem x hy))]

theorem pairwise_get_lt {keys : List Int} (hs : keys.Pairwise (· < ·))
    {i j : Nat} {y z : Int} (hij : i < j)
    (hy : keys.get? i = some y) (hz : keys.get? j = some z) : y < z := by
  have hj : j < keys.length := by
    by_contra hc
    rw [List.get?_eq_none.mpr (by omega)] at hz
    cases hz
  have hi : i < keys.length := by omega
  rw [List.get?_eq_get hi] at hy
  rw [List.get?_eq_get hj] at hz
  injection hy with hy
  injection hz with hz
  rw [← hy, ← hz]
  exact List.pairwise_iff_get.mp hs ⟨i, hi⟩ ⟨j, hj⟩ hij

/-- The claimed behaviour of the nearest-neighbour search for an absent query:
the first component is the greatest key below the query (`none` exactly when
the query is below every key) and the second the least key above it (`none`
exactly when the query is above every key). -/
def NearestSpec (keys : List Int) (q : Int) : Prop :=
  (∀ b, (binary_search_nearest keys q).1 = some b →
    b ∈ keys ∧ b < q ∧ ∀ y ∈ keys, y < q → y ≤ b) ∧
  ((binary_search_nearest keys q).1 = none ↔ ∀ y ∈ keys, q < y) ∧
  (∀ a, (binary_search_nearest keys q).2 = some a →
    a ∈ keys ∧ q < a ∧ ∀ y ∈ keys, q < y → a ≤ y) ∧
  ((binary_search_nearest keys q).2 = none ↔ ∀ y ∈ keys, y < q)

/-- Claim C7: on a non-empty strictly sorted key list, for a query equal to no
key, `binary_search_nearest` returns as `before` the greatest key smaller than
the query (absent exactly when the query is below the minimum) and as `after`
the smallest key greater than the query (absent exactly when the query is
above the maximum); for adjacent keys a < q < b this yields the pair (a, b). -/
theorem c7_nearest (keys : List Int) (q : Int) (hne : keys ≠ [])
    (hsort : keys.Pairwise (· < ·)) (hq : q ∉ keys) : NearestSpec keys q := by
  have hq' : ∀ y ∈ keys, y ≠ q := fun y hy hc => hq (hc ▸ hy)
  have hle := bisect_left_le_length keys q
  have hbef : (binary_search_nearest keys q).1 =
      if 0 < bisect_left keys q then keys.get? (bisect_left keys q - 1) else none := rfl
  have haft : (binary_search_nearest keys q).2 = keys.get? (bisect_left keys q) := rfl
  refine ⟨?_, ⟨?_, ?_⟩, ?_, ⟨?_, ?_⟩⟩
  · -- before = some b: greatest key below q
    intro b hb
    rw [hbef] at hb
    by_cases h0 : 0 < bisect_left keys q
    · rw [if_pos h0] at hb
      refine ⟨List.get?_mem hb, bisect_left_get_lt keys q _ b (by omega) hb, ?_⟩
      intro y hy hyq
      obtain ⟨i, hgi⟩ := List.mem_iff_get?.mp hy
      have hil : i < keys.length := by
        by_contra hc
        rw [List.get?_eq_none.mpr (by omega)] at hgi
        cases hgi
      have hipos : i < bisect_left keys q := by
        by_contra hge
        obtain ⟨z, hz⟩ : ∃ z, keys.get? (bisect_left keys q) = some z :=
          ⟨_, List.get?_eq_get (by omega)⟩
        have hzq := bisect_left_get_ge keys q z hz
        have hzy : z ≤ y := by
          rcases Nat.lt_or_ge (bisect_left keys q) i with hlt | hge2
          · exact le_of_lt (pairwise_get_lt hsort hlt hz hgi)
          · have hei : bisect_left keys q = i := by omega
            rw [hei, hgi] at hz
            injection hz with hz
            rw [hz]
        omega
      rcases Nat.lt_or_ge i (bisect_left keys q - 1) with hlt | hge
      · exact le_of_lt (pairwise_get_lt hsort hlt hgi hb)
      · have hei : i = bisect_left keys q - 1 := by omega
        rw [hei, hb] at hgi
        injection hgi with hgi
        rw [hgi]
    · rw [if_neg h0] at hb
      cases hb
  · -- before = none → q below every key
    intro hnone y hy
    rw [hbef] at hnone
    by_cases h0 : 0 < bisect_left keys q
    · rw [if_pos h0, List.get?_eq_none] at hnone
      omega
    · have hpos0 : bisect_left keys q = 0 := by omega
      obtain ⟨z, hz⟩ : ∃ z, keys.get? 0 = some z :=
        ⟨_, List.get?_eq_get (List.length_pos.mpr hne)⟩
      have hzq : ¬ z < q := bisect_left_get_ge keys q z (by rw [hpos0]; exact hz)
      obtain ⟨i, hgi⟩ := List.mem_iff_get?.mp hy
      have hzy : z ≤ y := by
        cases i with
        | zero =>
          rw [hgi] at hz
          injection hz with hz
          rw [hz]
        | succ i => exact le_of_lt (pairwise_get_lt hsort (Nat.succ_pos i) hz hgi)
      have := hq' y hy
      omega
  · -- q below every key → before = none
    intro hall
    rw [hbef, if_neg ?_]
    intro h0
    obtain ⟨w, hw⟩ : ∃ w, keys.get? (bisect_left keys q - 1) = some w :=
      ⟨_, List.get?_eq_get (by omega)⟩
    have hwq := bisect_left_get_lt keys q _ w (by omega) hw
    have := hall w (List.get?_mem hw)
    omega
  · -- after = some a: least key above q
    intro a ha
    rw [haft] at ha
    have haq := bisect_left_get_ge keys q a ha
    have hane := hq' a (List.get?_mem ha)
    refine ⟨List.get?_mem ha, by omega, ?_⟩
    intro y hy hqy
    obtain ⟨i, hgi⟩ := List.mem_iff_get?.mp hy
    rcases Nat.lt_or_ge i (bisect_left keys q) with hlt | hge
    · have := bisect_left_get_lt keys q i y hlt hgi
      omega
    · rcases Nat.lt_or_ge (bisect_left keys q) i with hlt2 | hge2
      · exact le_of_lt (pairwise_get_lt hsort hlt2 ha hgi)
      · have hei : bisect_left keys q = i := by omega
        rw [hei, hgi] at ha
        injection ha with ha
        rw [ha]
  · -- after = none → q above every key
    intro hnone y hy
    rw [haft, List.get?_eq_none] at hnone
    obtain ⟨i, hgi⟩ := List.mem_iff_get?.mp hy
    have hil : i < keys.length := by
      by_contra hc
      rw [List.get?_eq_none.mpr (by omega)] at hgi
      cases hgi
    exact bisect_left_get_lt keys q i y (by omega) hgi
  · -- q above every key → after = none
    intro hall
    rw [haft, List.get?_eq_none, bisect_left_eq_length keys q hall]

/-- Claim C7, witness: the characterisation applied to the two-key index
{3, 7} and the absent query 5 lying strictly between the adjacent keys. -/
theorem c7_witness : NearestSpec [3, 7] 5 :=
  c7_nearest _ 5 (by decide) (by decide) (by decide)

/-! The search-stage claims. -/

/-- Claim C8: whenever the query equals the application number of some entry
of the dataframe, the search takes the exact-match path and renders the stored
decision string of such an entry (the first one carrying that key), not the
nearest-pair or empty presentation. -/
theorem c8_exact (df : List Entry) (q : Int) (h : q ∈ df.map Prod.fst) :
    ∃ e, e ∈ df ∧ e.1 = q ∧ searchOutcome df q = .exact q e.2 := by
  obtain ⟨e0, he0, heq0⟩ := List.mem_map.mp h
  have hfind : ∃ e, df.find? (fun e => e.1 == q) = some e := by
    cases hf : df.find? (fun e => e.1 == q) with
    | none =>
      rw [List.find?_eq_none] at hf
      exact absurd (by simp [heq0]) (hf e0 he0)
    | some e => exact ⟨e, rfl⟩
  obtain ⟨e, hfe⟩ := hfind
  refine ⟨e, List.mem_of_find?_eq_some hfe, ?_, ?_⟩
  · have := List.find?_some hfe
    simpa using this
  · unfold searchOutcome
    rw [hfe]

/-- Claim C8, witness: the exact-match path on a one-entry index queried with
its own key. -/
theorem c8_witness :
    ∃ e, e ∈ ([((10000001 : Int), "Approved")] : List Entry) ∧ e.1 = 10000001 ∧
      searchOutcome [((10000001 : Int), "Approved")] 10000001 = .exact 10000001 e.2 :=
  c8_exact _ 10000001 (by decide)

/-- Claim C5, counterexample: the search on an empty index produces exactly
the same outcome as the search on the non-empty index {0} with the same absent
query — the ordinary "No record found" path with an empty nearest table — so
an empty index yields no dedicated Empty result distinguishable from the
not-found result on a non-empty index. -/
theorem c5_counterexample :
    searchOutcome ([] : List Entry) 10000003 = .noRecord [] ∧
    searchOutcome [((0 : Int), "Approved")] 10000003 = .noRecord [] ∧
    searchOutcome ([] : List Entry) 10000003 =
      searchOutcome [((0 : Int), "Approved")] 10000003 := by
  refine ⟨rfl, rfl, ?_⟩
  rw [show searchOutcome ([] : List Entry) 10000003 = .noRecord [] from rfl]
  rw [show searchOutcome [((0 : Int), "Approved")] 10000003 = .noRecord [] from rfl]

/-- Claim C5 (amended): the search on an index with zero entries follows the
ordinary not-found path for every query and yields the no-record outcome with
an empty nearest-records table (rendered "No nearest application numbers
found."); there is no dedicated Empty variant, and the very same outcome can
arise from a non-empty index. -/
theorem c5_amended (q : Int) : searchOutcome ([] : List Entry) q = .noRecord [] := rfl

/-- Claim C10: when the dataframe's minimum application number is 0, the query
is a larger absent number, and the before-neighbour computed by the binary
search is that entry 0, the presentation drops it: the Python truthiness test
`if before` treats the number 0 as no neighbour at all, so its decision and
difference cells are set to null and `dropna()` removes the whole "Before"
row, even though the entry 0 precedes the query in the index. -/
theorem c10_zero_before (df : List Entry) (q : Int)
    (hmem : (0 : Int) ∈ df.map Prod.fst) (hmin : ∀ k ∈ df.map Prod.fst, 0 ≤ k)
    (hq : 0 < q) (habs : q ∉ df.map Prod.fst)
    (hb : (binary_search_nearest (df.map Prod.fst) q).1 = some 0) :
    (beforeRow df q (some 0)).decision = none ∧
    (beforeRow df q (some 0)).diff = none ∧
    ∃ t, searchOutcome df q = .noRecord t ∧ ∀ r ∈ t, r.label ≠ "Before" := by
  refine ⟨rfl, rfl, ?_⟩
  have hfind : df.find? (fun e => e.1 == q) = none := by
    rw [List.find?_eq_none]
    intro e he hc
    exact habs (List.mem_map.mpr ⟨e, he, by simpa using hc⟩)
  refine ⟨nearestRecords df q (binary_search_nearest (df.map Prod.fst) q).1
    (binary_search_nearest (df.map Prod.fst) q).2, ?_, ?_⟩
  · unfold searchOutcome
    rw [hfind]
  · intro r hr
    unfold nearestRecords at hr
    rw [hb] at hr
    have hrc := (List.mem_filter.mp hr).2
    have hrm := (List.mem_filter.mp hr).1
    rcases List.mem_cons.mp hrm with hbe | hrm'
    · rw [hbe] at hrc
      rw [show rowComplete (beforeRow df q (some 0)) = false from rfl] at hrc
      cases hrc
    · rcases List.mem_cons.mp hrm' with haf | hnil
      · rw [haf]
        show ("After" : String) ≠ "Before"
        decide
      · cases hnil

/-- Claim C10, witness: on the index {0 ↦ Approved, 10 ↦ Refused} with the
absent query 5, the before-neighbour is the entry 0 and the rendered nearest
table contains no "Before" row. -/
theorem c10_witness :
    (beforeRow [((0 : Int), "Approved"), ((10 : Int), "Refused")] 5 (some 0)).decision
      = none ∧
    (beforeRow [((0 : Int), "Approved"), ((10 : Int), "Refused")] 5 (some 0)).diff
      = none ∧
    ∃ t, searchOutcome [((0 : Int), "Approved"), ((10 : Int), "Refused")] 5 =
      .noRecord t ∧ ∀ r ∈ t, r.label ≠ "Before" :=
  c10_zero_before _ 5 (by decide) (by decide) (by decide) (by decide) (by decide)
